import Mathlib

set_option maxRecDepth 200000
set_option maxHeartbeats 1000000

/-!
# Verification of `get_pdf_local_path` (ebook-mcp)

A shallow embedding, in Lean 4, of the cache-fetch-and-materialize routine
`get_pdf_local_path` from `src/ebook_mcp/tools/get_pdf_local_path.py`, together
with proofs of the behavioural properties its specification states.

The embedding models:

* SHA-256 (FIPS 180-4) over byte lists, as used by `hashlib.sha256(...).hexdigest()`;
* UTF-8 encoding of strings, as used by `url.encode("utf-8")`;
* the scheme-extraction and the IPv6-bracket-mismatch check of CPython's
  `urllib.parse.urlparse` (the only parts of `urlparse` the routine observes);
* a filesystem as an association list from path to byte content, a network
  oracle describing the outcome of `urllib.request.urlopen` and its chunked
  reads, and a filesystem oracle describing whether `os.replace` / `os.remove`
  succeed;
* the routine itself as a pure state-passing function that also records the
  trace of filesystem and network operations it performs, in order.

All definitions are executable so that concrete runs can be settled by `decide`.
-/

namespace PdfCache

/-- Byte sequences: each entry is a byte value `< 256`. -/
abbrev Bytes := List Nat

/-! ## SHA-256 over byte lists

A direct transcription of FIPS 180-4, modelling Python's
`hashlib.sha256(data).hexdigest()`.  32-bit words are `Nat`s reduced
`% 4294967296` where overflow matters. -/

/-- Addition modulo 2^32. -/
def add32 (a b : Nat) : Nat := (a + b) % 4294967296

/-- Right-rotation of a 32-bit word by `n` bits. -/
def rotr32 (n x : Nat) : Nat :=
  Nat.lor (x <<< (32 - n)) (x >>> n) % 4294967296

/-- SHA-256 big sigma 0. -/
def bigSigma0 (x : Nat) : Nat :=
  Nat.xor (Nat.xor (rotr32 2 x) (rotr32 13 x)) (rotr32 22 x)

/-- SHA-256 big sigma 1. -/
def bigSigma1 (x : Nat) : Nat :=
  Nat.xor (Nat.xor (rotr32 6 x) (rotr32 11 x)) (rotr32 25 x)

/-- SHA-256 small sigma 0. -/
def smallSigma0 (x : Nat) : Nat :=
  Nat.xor (Nat.xor (rotr32 7 x) (rotr32 18 x)) (x >>> 3)

/-- SHA-256 small sigma 1. -/
def smallSigma1 (x : Nat) : Nat :=
  Nat.xor (Nat.xor (rotr32 17 x) (rotr32 19 x)) (x >>> 10)

/-- SHA-256 choice function. -/
def chooseFn (x y z : Nat) : Nat :=
  Nat.xor (x &&& y) (Nat.xor x 4294967295 &&& z)

/-- SHA-256 majority function. -/
def majFn (x y z : Nat) : Nat :=
  Nat.xor (Nat.xor (x &&& y) (x &&& z)) (y &&& z)

/-- The 64 SHA-256 round constants (FIPS 180-4 §4.2.2, here in decimal). -/
def sha256K : List Nat :=
  [1116352408, 1899447441, 3049323471, 3921009573, 961987163,
   1508970993, 2453635748, 2870763221, 3624381080, 310598401,
   607225278, 1426881987, 1925078388, 2162078206, 2614888103,
   3248222580, 3835390401, 4022224774, 264347078, 604807628,
   770255983, 1249150122, 1555081692, 1996064986, 2554220882,
   2821834349, 2952996808, 3210313671, 3336571891, 3584528711,
   113926993, 338241895, 666307205, 773529912, 1294757372,
   1396182291, 1695183700, 1986661051, 2177026350, 2456956037,
   2730485921, 2820302411, 3259730800, 3345764771, 3516065817,
   3600352804, 4094571909, 275423344, 430227734, 506948616,
   659060556, 883997877, 958139571, 1322822218, 1537002063,
   1747873779, 1955562222, 2024104815, 2227730452, 2361852424,
   2428436474, 2756734187, 3204031479, 3329325298]

/-- The SHA-256 initial hash value (FIPS 180-4 §5.3.3, here in decimal). -/
def sha256H0 : List Nat :=
  [1779033703, 3144134277, 1013904242, 2773480762,
   1359893119, 2600822924, 528734635, 1541459225]

/-- Big-endian 8-byte encoding of a message bit-length. -/
def lenBytes (n : Nat) : Bytes :=
  [n / 72057594037927936 % 256, n / 281474976710656 % 256,
   n / 1099511627776 % 256, n / 4294967296 % 256,
   n / 16777216 % 256, n / 65536 % 256, n / 256 % 256, n % 256]

/-- SHA-256 padding: append `0x80`, zero bytes up to 56 mod 64, and the
big-endian 64-bit bit-length of the message. -/
def sha256Pad (msg : Bytes) : Bytes :=
  let L := msg.length
  let k := (119 - L % 64) % 64
  msg ++ [0x80] ++ List.replicate k 0 ++ lenBytes (8 * L)

/-- Group bytes into big-endian 32-bit words, four bytes per word. -/
def bytesToWords : Bytes → List Nat
  | a :: b :: c :: d :: rest => (((a * 256 + b) * 256 + c) * 256 + d) :: bytesToWords rest
  | _ => []

/-- Split a byte list into 64-byte blocks; `fuel` bounds the recursion and is
instantiated with the length of the list. -/
def toBlocks : Nat → Bytes → List Bytes
  | 0, _ => []
  | _, [] => []
  | fuel + 1, bs => bs.take 64 :: toBlocks fuel (bs.drop 64)

/-- Extend a 16-word message schedule to 64 words. -/
def extendW : Nat → List Nat → List Nat
  | 0, ws => ws
  | fuel + 1, ws =>
    let n := ws.length
    let w := add32 (add32 (smallSigma1 (ws.getD (n - 2) 0)) (ws.getD (n - 7) 0))
                   (add32 (smallSigma0 (ws.getD (n - 15) 0)) (ws.getD (n - 16) 0))
    extendW fuel (ws ++ [w])

/-- One SHA-256 round: update the eight-word working state with a pair of a
schedule word and a round constant. -/
def sha256Round (st : List Nat) (wk : Nat × Nat) : List Nat :=
  match st with
  | [a, b, c, d, e, f, g, h] =>
    let t1 := add32 (add32 (add32 h (bigSigma1 e)) (add32 (chooseFn e f g) wk.2)) wk.1
    let t2 := add32 (bigSigma0 a) (majFn a b c)
    [add32 t1 t2, a, b, c, add32 d t1, e, f, g]
  | _ => st

/-- Process one 64-byte block: run the 64 rounds and add the result into the
running hash value. -/
def sha256Block (hs : List Nat) (block : Bytes) : List Nat :=
  let ws := extendW 48 (bytesToWords block)
  let st := List.foldl sha256Round hs (ws.zip sha256K)
  List.zipWith add32 hs st

/-- The SHA-256 digest of a byte list, as eight 32-bit words. -/
def sha256Words (msg : Bytes) : List Nat :=
  let padded := sha256Pad msg
  List.foldl sha256Block sha256H0 (toBlocks padded.length padded)

/-- A lowercase hexadecimal digit. -/
def hexDigit (n : Nat) : Char :=
  if n < 10 then Char.ofNat (48 + n) else Char.ofNat (87 + n)

/-- The eight lowercase hex digits of a 32-bit word, most significant first. -/
def wordHex (w : Nat) : List Char :=
  [hexDigit (w / 268435456 % 16), hexDigit (w / 16777216 % 16),
   hexDigit (w / 1048576 % 16), hexDigit (w / 65536 % 16),
   hexDigit (w / 4096 % 16), hexDigit (w / 256 % 16),
   hexDigit (w / 16 % 16), hexDigit (w % 16)]

/-- `hashlib.sha256(msg).hexdigest()`: the 64-character lowercase hex digest. -/
def sha256Hex (msg : Bytes) : String :=
  String.mk ((sha256Words msg).map wordHex).flatten

/-! ## UTF-8 encoding, modelling Python's `str.encode("utf-8")`. -/

/-- The UTF-8 byte encoding of a single Unicode code point. -/
def utf8Char (c : Char) : Bytes :=
  let n := c.toNat
  if n < 128 then [n]
  else if n < 2048 then [192 + n / 64, 128 + n % 64]
  else if n < 65536 then [224 + n / 4096, 128 + n / 64 % 64, 128 + n % 64]
  else [240 + n / 262144, 128 + n / 4096 % 64, 128 + n / 64 % 64, 128 + n % 64]

/-- The UTF-8 byte encoding of a string (`url.encode("utf-8")`). -/
def utf8 (s : String) : Bytes :=
  (s.toList.map utf8Char).flatten

/-! ## `urllib.parse.urlparse`, as far as the routine observes it

The routine reads only `urlparse(url).scheme`, but `urlparse` itself can raise
`ValueError` (mismatched IPv6 brackets in the authority).  We model, following
CPython's `urllib/parse.py`:

* stripping of leading/trailing C0-control-or-space characters and removal of
  all tab/CR/LF characters before parsing;
* scheme extraction: the part before the first `:`, accepted when it is
  non-empty, starts with an ASCII letter and continues with ASCII
  letters/digits/`+`/`-`/`.`; the accepted scheme is lowercased;
* the `Invalid IPv6 URL` check: if the remainder starts with `//`, the netloc
  runs to the next `/`, `?` or `#`, and a `[` without `]` (or vice versa)
  raises `ValueError`.

Deeper host validation done by very recent CPython versions is not modelled;
no claim depends on it. -/

/-- WHATWG sanitisation performed by `urlsplit`: strip C0 controls and spaces
from both ends, then drop every tab, CR and LF. -/
def sanitizeUrl (s : String) : List Char :=
  let l := s.toList
  let l := l.dropWhile (fun c => c.toNat ≤ 32)
  let l := (l.reverse.dropWhile (fun c => c.toNat ≤ 32)).reverse
  l.filter (fun c => !(c = '\t' ∨ c = '\r' ∨ c = '\n'))

/-- Characters allowed after the first character of a URL scheme. -/
def isSchemeChar (c : Char) : Bool :=
  c.isAlpha || c.isDigit || c = '+' || c = '-' || c = '.'

/-- Split a character list at the first colon: `some (before, after)` when a
colon occurs, `none` otherwise. -/
def firstColonSplit : List Char → Option (List Char × List Char)
  | [] => none
  | c :: rest =>
    if c = ':' then some ([], rest)
    else match firstColonSplit rest with
         | none => none
         | some (b, a) => some (c :: b, a)

/-- Scheme splitting as `urlsplit` performs it, before lowercasing: the raw
scheme characters and the remainder, or `([], l)` when no valid scheme is
present. -/
def splitSchemeRaw (l : List Char) : List Char × List Char :=
  match firstColonSplit l with
  | none => ([], l)
  | some (bef, aft) =>
    match bef with
    | [] => ([], l)
    | c0 :: rest =>
      if c0.isAlpha ∧ (rest.all isSchemeChar) = true then (c0 :: rest, aft)
      else ([], l)

/-- The raw (not yet lowercased) scheme characters `urlsplit` finds in `url`. -/
def rawScheme (url : String) : List Char :=
  (splitSchemeRaw (sanitizeUrl url)).1

/-- The netloc `urlsplit` extracts from the remainder after the scheme: the
part after a leading `//`, up to the next `/`, `?` or `#`. -/
def netlocOf : List Char → List Char
  | '/' :: '/' :: r => r.takeWhile (fun c => !(c = '/' ∨ c = '?' ∨ c = '#'))
  | _ => []

/-- `urlparse(url).scheme`, or `none` when `urlparse` raises `ValueError`
(mismatched IPv6 brackets in the netloc).  The accepted scheme is lowercased,
as CPython does with `url[:i].lower()`. -/
def urlparseScheme (url : String) : Option String :=
  let sr := splitSchemeRaw (sanitizeUrl url)
  let nl := netlocOf sr.2
  if (nl.contains '[' == nl.contains ']') = true then
    some (String.mk (sr.1.map Char.toLower))
  else none

/-! ## Filesystem, network oracle and event traces -/

/-- A filesystem: an association list from absolute path to file content.
`FS.set` and `FS.remove` keep at most one entry per path. -/
abbrev FS := List (String × Bytes)

/-- Content at a path, if a file exists there. -/
def FS.get (fs : FS) (p : String) : Option Bytes :=
  (fs.find? (fun e => e.1 == p)).map (fun e => e.2)

/-- `os.path.exists(p)`. -/
def FS.probe (fs : FS) (p : String) : Bool :=
  (fs.get p).isSome

/-- Remove the file at `p`, if any. -/
def FS.remove (fs : FS) (p : String) : FS :=
  fs.filter (fun e => !(e.1 == p))

/-- Create or overwrite the file at `p` with content `c`. -/
def FS.set (fs : FS) (p : String) (c : Bytes) : FS :=
  (p, c) :: fs.remove p

/-- Behaviour of the network for one invocation: whether
`urllib.request.urlopen(url)` succeeds, the successive non-raising results of
`resp.read(8192)`, and whether, after those, the next read returns `b""`
(`completes = true`) or raises (`completes = false`).  A read result of `[]`
inside `chunks` is an end-of-stream signal, as in Python. -/
structure Net where
  connects : Bool
  chunks : List Bytes
  completes : Bool

/-- Behaviour of the fallible filesystem calls for one invocation: whether
`os.replace` succeeds and whether `os.remove` (in the cleanup) succeeds. -/
structure FSO where
  replaceOk : Bool
  removeOk : Bool

/-- One observable I/O event of the routine, in program order. -/
inductive Ev
  | probe (p : String)
  | connect (u : String)
  | openw (p : String)
  | write (p : String) (c : Bytes)
  | rename (src dst : String)
  | remove (p : String)
deriving DecidableEq, Repr

/-- The errors of the routine: `ValueError` from validation or parsing,
`URLError`/`HTTPError` from the download, `OSError` from `os.replace`. -/
inductive Err
  | invalidURL
  | downloadError
  | fsError
deriving DecidableEq, Repr

/-- Decidable equality for `Except`, needed to settle concrete runs. -/
instance {ε α : Type} [DecidableEq ε] [DecidableEq α] :
    DecidableEq (Except ε α) := fun a b =>
  match a, b with
  | .ok x, .ok y =>
    if h : x = y then .isTrue (by rw [h]) else .isFalse (by simp [h])
  | .error x, .error y =>
    if h : x = y then .isTrue (by rw [h]) else .isFalse (by simp [h])
  | .ok _, .error _ => .isFalse (by simp)
  | .error _, .ok _ => .isFalse (by simp)

/-- Result of one invocation: the returned path or raised error, the final
filesystem, and the trace of I/O events performed. -/
structure RunResult where
  res : Except Err String
  fs : FS
  tr : List Ev
deriving DecidableEq, Repr

/-! ## The routine itself -/

/-- `tempfile.gettempdir()`, modelled as the conventional POSIX value. -/
def tmpdir : String := "/tmp"

/-- `os.path.join(tmpdir, filename)` for an absolute directory with no
trailing separator. -/
def osPathJoin (d f : String) : String := d ++ "/" ++ f

/-- The cache path the routine computes for `url`:
`os.path.join(tempfile.gettempdir(), sha256(url.encode("utf-8")).hexdigest() + ".pdf")`. -/
def fullpathOf (url : String) : String :=
  osPathJoin tmpdir (sha256Hex (utf8 url) ++ ".pdf")

/-- The chunks the download loop actually writes: the longest leading run of
non-empty `read` results (an empty read result ends the `while chunk:` loop). -/
def streamWritten : List Bytes → List Bytes
  | [] => []
  | c :: rest => if c.isEmpty then [] else c :: streamWritten rest

/-- Whether the download loop finishes without a read raising: it does when it
meets an empty read result, or exhausts `chunks` and the stream `completes`. -/
def streamOk : List Bytes → Bool → Bool
  | [], completes => completes
  | c :: rest, completes => if c.isEmpty then true else streamOk rest completes

/-- The `finally` clause (lines 48–54 of the source): probe for a stray
staging file and, when it exists while the final path does not, best-effort
delete it, swallowing a failing `os.remove`.  Returns the filesystem after the
clause together with the events it performed. -/
def cleanup (fso : FSO) (tmppath fullpath : String) (fs : FS) : FS × List Ev :=
  if fs.probe tmppath then
    if fs.probe fullpath then (fs, [.probe tmppath, .probe fullpath])
    else if fso.removeOk then
      (fs.remove tmppath, [.probe tmppath, .probe fullpath, .remove tmppath])
    else (fs, [.probe tmppath, .probe fullpath])
  else (fs, [.probe tmppath])

/-- The embedding of `get_pdf_local_path(url)` (lines 7–56 of the source),
run against a network behaviour `net`, fallible-call behaviour `fso` and
initial filesystem `fs`. -/
def get_pdf_local_path (url : String) (net : Net) (fso : FSO) (fs : FS) : RunResult :=
  match urlparseScheme url with
  | none => ⟨.error .invalidURL, fs, []⟩            -- urlparse raised ValueError
  | some scheme =>
    if (scheme = "http" ∨ scheme = "https") then
      -- digest of the original, unmodified URL string; then the temp-dir path
      let fullpath := fullpathOf url
      if fs.probe fullpath then ⟨.ok fullpath, fs, [.probe fullpath]⟩
      else
        let tmppath := fullpath ++ ".part"
        if net.connects then
          -- `open(tmppath, "wb")` truncates, then the loop appends each chunk
          let ws := streamWritten net.chunks
          let fs1 := (fs.set tmppath []).set tmppath ws.flatten
          let tr1 := [Ev.probe fullpath, Ev.connect url, Ev.openw tmppath] ++
                     ws.map (Ev.write tmppath)
          if streamOk net.chunks net.completes then
            if fso.replaceOk then
              let fs2 := (fs1.remove tmppath).set fullpath ws.flatten
              let c := cleanup fso tmppath fullpath fs2
              ⟨.ok fullpath, c.1, tr1 ++ [Ev.rename tmppath fullpath] ++ c.2⟩
            else
              let c := cleanup fso tmppath fullpath fs1
              ⟨.error .fsError, c.1, tr1 ++ c.2⟩
          else
            let c := cleanup fso tmppath fullpath fs1
            ⟨.error .downloadError, c.1, tr1 ++ c.2⟩
        else
          let c := cleanup fso tmppath fullpath fs
          ⟨.error .downloadError, c.1, [Ev.probe fullpath, Ev.connect url] ++ c.2⟩
    else ⟨.error .invalidURL, fs, []⟩

/-! ## Spec-side definitions

`specCachePath` is written from the specification's words, independently of the
source: "the system shared temporary directory joined with the lowercase
hexadecimal SHA-256 digest of the UTF-8 bytes of the original, unmodified URL
string, with the fixed extension `.pdf` appended". -/

/-- The cache path as the specification describes it. -/
def specCachePath (url : String) : String :=
  tmpdir ++ "/" ++ (sha256Hex (utf8 url) ++ ".pdf")

/-- A lowercase hexadecimal digit character: `0`–`9` or `a`–`f`. -/
def isLowerHexChar (c : Char) : Bool :=
  c.isDigit || ('a' ≤ c && c ≤ 'f')

/-! ## Lemmas about the filesystem model -/

theorem FS.get_cons_self (e : String × Bytes) (rest : FS) (q : String)
    (h : e.1 = q) : FS.get (e :: rest) q = some e.2 := by
  unfold FS.get
  rw [List.find?_cons_of_pos _ (by simp [h])]
  rfl

theorem FS.get_cons_ne (e : String × Bytes) (rest : FS) (q : String)
    (h : e.1 ≠ q) : FS.get (e :: rest) q = FS.get rest q := by
  unfold FS.get
  rw [List.find?_cons_of_neg _ (by simp [h])]

theorem FS.remove_cons_self (e : String × Bytes) (rest : FS) (p : String)
    (h : e.1 = p) : FS.remove (e :: rest) p = rest.remove p := by
  unfold FS.remove
  rw [List.filter_cons_of_neg (by simp [h])]

theorem FS.remove_cons_ne (e : String × Bytes) (rest : FS) (p : String)
    (h : e.1 ≠ p) : FS.remove (e :: rest) p = e :: rest.remove p := by
  unfold FS.remove
  rw [List.filter_cons_of_pos (by simp [h])]

theorem FS.get_set_self (fs : FS) (p : String) (c : Bytes) :
    (fs.set p c).get p = some c :=
  FS.get_cons_self (p, c) (fs.remove p) p rfl

theorem FS.get_remove_self (fs : FS) (p : String) :
    (fs.remove p).get p = none := by
  induction fs with
  | nil => rfl
  | cons e rest ih =>
    by_cases h : e.1 = p
    · rw [FS.remove_cons_self e rest p h]; exact ih
    · rw [FS.remove_cons_ne e rest p h, FS.get_cons_ne e _ p h]; exact ih

theorem FS.get_remove_ne (fs : FS) (p q : String) (h : q ≠ p) :
    (fs.remove p).get q = fs.get q := by
  induction fs with
  | nil => rfl
  | cons e rest ih =>
    by_cases he : e.1 = p
    · rw [FS.remove_cons_self e rest p he,
          FS.get_cons_ne e rest q (by rw [he]; exact Ne.symm h)]
      exact ih
    · rw [FS.remove_cons_ne e rest p he]
      by_cases hq : e.1 = q
      · rw [FS.get_cons_self _ _ q hq, FS.get_cons_self e rest q hq]
      · rw [FS.get_cons_ne _ _ q hq, FS.get_cons_ne e rest q hq]; exact ih

theorem FS.get_set_ne (fs : FS) (p q : String) (c : Bytes) (h : q ≠ p) :
    (fs.set p c).get q = fs.get q := by
  unfold FS.set
  rw [FS.get_cons_ne (p, c) _ q (Ne.symm h)]
  exact FS.get_remove_ne fs p q h

theorem FS.probe_set_self (fs : FS) (p : String) (c : Bytes) :
    (fs.set p c).probe p = true := by
  simp [FS.probe, FS.get_set_self]

theorem FS.probe_remove_self (fs : FS) (p : String) :
    (fs.remove p).probe p = false := by
  simp [FS.probe, FS.get_remove_self]

theorem FS.probe_set_ne (fs : FS) (p q : String) (c : Bytes) (h : q ≠ p) :
    (fs.set p c).probe q = fs.probe q := by
  simp [FS.probe, FS.get_set_ne fs p q c h]

theorem FS.probe_remove_ne (fs : FS) (p q : String) (h : q ≠ p) :
    (fs.remove p).probe q = fs.probe q := by
  simp [FS.probe, FS.get_remove_ne fs p q h]

/-- A path is never equal to itself with `".part"` appended. -/
theorem ne_append_part (s : String) : s ++ ".part" ≠ s := by
  intro h
  have hd : s.data ++ ".part".data = s.data := by
    simpa [String.data_append] using congrArg String.data h
  have := congrArg List.length hd
  simp at this

/-! ## Lemmas about the cleanup clause -/

/-- The cleanup clause touches no path other than the staging path. -/
theorem cleanup_get_other (fso : FSO) (t f : String) (fs : FS) (q : String)
    (hq : q ≠ t) : ((cleanup fso t f fs).1).get q = fs.get q := by
  unfold cleanup
  split_ifs <;> simp [FS.get_remove_ne _ _ _ hq]

/-- The cleanup clause touches no path other than the staging path. -/
theorem cleanup_probe_other (fso : FSO) (t f : String) (fs : FS) (q : String)
    (hq : q ≠ t) : ((cleanup fso t f fs).1).probe q = fs.probe q := by
  simp [FS.probe, cleanup_get_other fso t f fs q hq]

/-- When `os.remove` succeeds and the final path is absent, the cleanup clause
guarantees the staging path is gone. -/
theorem cleanup_removes_staging (fso : FSO) (t f : String) (fs : FS)
    (hrm : fso.removeOk = true) (hf : fs.probe f = false) :
    ((cleanup fso t f fs).1).probe t = false := by
  unfold cleanup
  by_cases h1 : fs.probe t = true
  · rw [if_pos h1, if_neg (by simp [hf]), if_pos hrm]
    exact FS.probe_remove_self fs t
  · rw [if_neg h1]
    simpa using h1

/-! ## Unfolding lemmas for the branches of the routine -/

theorem run_parse_fail (url : String) (net : Net) (fso : FSO) (fs : FS)
    (h : urlparseScheme url = none) :
    get_pdf_local_path url net fso fs = ⟨.error .invalidURL, fs, []⟩ := by
  unfold get_pdf_local_path
  rw [h]

theorem run_bad_scheme (url s : String) (net : Net) (fso : FSO) (fs : FS)
    (h : urlparseScheme url = some s) (hs : ¬(s = "http" ∨ s = "https")) :
    get_pdf_local_path url net fso fs = ⟨.error .invalidURL, fs, []⟩ := by
  unfold get_pdf_local_path
  rw [h]
  dsimp only
  rw [if_neg hs]

theorem run_hit (url s : String) (net : Net) (fso : FSO) (fs : FS)
    (h : urlparseScheme url = some s) (hs : s = "http" ∨ s = "https")
    (hp : fs.probe (fullpathOf url) = true) :
    get_pdf_local_path url net fso fs =
      ⟨.ok (fullpathOf url), fs, [.probe (fullpathOf url)]⟩ := by
  unfold get_pdf_local_path
  rw [h]
  dsimp only
  rw [if_pos hs, if_pos hp]

theorem run_no_connect (url s : String) (net : Net) (fso : FSO) (fs : FS)
    (h : urlparseScheme url = some s) (hs : s = "http" ∨ s = "https")
    (hp : fs.probe (fullpathOf url) = false) (hc : net.connects = false) :
    get_pdf_local_path url net fso fs =
      ⟨.error .downloadError,
       (cleanup fso (fullpathOf url ++ ".part") (fullpathOf url) fs).1,
       [Ev.probe (fullpathOf url), Ev.connect url] ++
         (cleanup fso (fullpathOf url ++ ".part") (fullpathOf url) fs).2⟩ := by
  unfold get_pdf_local_path
  rw [h]
  dsimp only
  rw [if_pos hs, if_neg (by simp [hp]), if_neg (by simp [hc])]

theorem run_download_ok (url s : String) (net : Net) (fso : FSO) (fs : FS)
    (h : urlparseScheme url = some s) (hs : s = "http" ∨ s = "https")
    (hp : fs.probe (fullpathOf url) = false) (hc : net.connects = true)
    (hok : streamOk net.chunks net.completes = true)
    (hrep : fso.replaceOk = true) :
    get_pdf_local_path url net fso fs =
      ⟨.ok (fullpathOf url),
       (cleanup fso (fullpathOf url ++ ".part") (fullpathOf url)
         (((((fs.set (fullpathOf url ++ ".part") []).set
              (fullpathOf url ++ ".part")
              (streamWritten net.chunks).flatten)).remove
            (fullpathOf url ++ ".part")).set (fullpathOf url)
           (streamWritten net.chunks).flatten)).1,
       ([Ev.probe (fullpathOf url), Ev.connect url,
         Ev.openw (fullpathOf url ++ ".part")] ++
        (streamWritten net.chunks).map (Ev.write (fullpathOf url ++ ".part")) ++
        [Ev.rename (fullpathOf url ++ ".part") (fullpathOf url)]) ++
       (cleanup fso (fullpathOf url ++ ".part") (fullpathOf url)
         (((((fs.set (fullpathOf url ++ ".part") []).set
              (fullpathOf url ++ ".part")
              (streamWritten net.chunks).flatten)).remove
            (fullpathOf url ++ ".part")).set (fullpathOf url)
           (streamWritten net.chunks).flatten)).2⟩ := by
  unfold get_pdf_local_path
  rw [h]
  dsimp only
  rw [if_pos hs, if_neg (by simp [hp]), if_pos hc, if_pos hok, if_pos hrep]

theorem run_replace_fail (url s : String) (net : Net) (fso : FSO) (fs : FS)
    (h : urlparseScheme url = some s) (hs : s = "http" ∨ s = "https")
    (hp : fs.probe (fullpathOf url) = false) (hc : net.connects = true)
    (hok : streamOk net.chunks net.completes = true)
    (hrep : fso.replaceOk = false) :
    get_pdf_local_path url net fso fs =
      ⟨.error .fsError,
       (cleanup fso (fullpathOf url ++ ".part") (fullpathOf url)
         ((fs.set (fullpathOf url ++ ".part") []).set
           (fullpathOf url ++ ".part") (streamWritten net.chunks).flatten)).1,
       ([Ev.probe (fullpathOf url), Ev.connect url,
         Ev.openw (fullpathOf url ++ ".part")] ++
        (streamWritten net.chunks).map (Ev.write (fullpathOf url ++ ".part"))) ++
       (cleanup fso (fullpathOf url ++ ".part") (fullpathOf url)
         ((fs.set (fullpathOf url ++ ".part") []).set
           (fullpathOf url ++ ".part") (streamWritten net.chunks).flatten)).2⟩ := by
  unfold get_pdf_local_path
  rw [h]
  dsimp only
  rw [if_pos hs, if_neg (by simp [hp]), if_pos hc, if_pos hok,
      if_neg (by simp [hrep])]

theorem run_stream_fail (url s : String) (net : Net) (fso : FSO) (fs : FS)
    (h : urlparseScheme url = some s) (hs : s = "http" ∨ s = "https")
    (hp : fs.probe (fullpathOf url) = false) (hc : net.connects = true)
    (hok : streamOk net.chunks net.completes = false) :
    get_pdf_local_path url net fso fs =
      ⟨.error .downloadError,
       (cleanup fso (fullpathOf url ++ ".part") (fullpathOf url)
         ((fs.set (fullpathOf url ++ ".part") []).set
           (fullpathOf url ++ ".part") (streamWritten net.chunks).flatten)).1,
       ([Ev.probe (fullpathOf url), Ev.connect url,
         Ev.openw (fullpathOf url ++ ".part")] ++
        (streamWritten net.chunks).map (Ev.write (fullpathOf url ++ ".part"))) ++
       (cleanup fso (fullpathOf url ++ ".part") (fullpathOf url)
         ((fs.set (fullpathOf url ++ ".part") []).set
           (fullpathOf url ++ ".part") (streamWritten net.chunks).flatten)).2⟩ := by
  unfold get_pdf_local_path
  rw [h]
  dsimp only
  rw [if_pos hs, if_neg (by simp [hp]), if_pos hc, if_neg (by simp [hok])]

/-! ## Derived facts used by several claims -/

/-- When `urlparse` accepts, the scheme it reports is the lowercasing of the
raw scheme characters found in the URL. -/
theorem urlparseScheme_eq_lower (url s : String)
    (h : urlparseScheme url = some s) :
    s = String.mk ((rawScheme url).map Char.toLower) := by
  unfold urlparseScheme at h
  unfold rawScheme
  dsimp only at h
  split_ifs at h
  exact (Option.some.injEq _ _ ▸ h).symm

/-- Every successful invocation returns the computed cache path. -/
theorem res_ok_path (url : String) (net : Net) (fso : FSO) (fs : FS)
    (p : String) (h : (get_pdf_local_path url net fso fs).res = .ok p) :
    p = fullpathOf url := by
  cases hu : urlparseScheme url with
  | none =>
    rw [run_parse_fail url net fso fs hu] at h
    exact absurd h (by simp)
  | some s =>
    by_cases hs : s = "http" ∨ s = "https"
    · by_cases hp : fs.probe (fullpathOf url) = true
      · rw [run_hit url s net fso fs hu hs hp] at h
        simp at h
        exact h.symm
      · have hp' : fs.probe (fullpathOf url) = false := by simpa using hp
        by_cases hc : net.connects = true
        · by_cases hok : streamOk net.chunks net.completes = true
          · by_cases hrep : fso.replaceOk = true
            · rw [run_download_ok url s net fso fs hu hs hp' hc hok hrep] at h
              simp at h
              exact h.symm
            · rw [run_replace_fail url s net fso fs hu hs hp' hc hok
                    (by simpa using hrep)] at h
              exact absurd h (by simp)
          · rw [run_stream_fail url s net fso fs hu hs hp' hc
                  (by simpa using hok)] at h
            exact absurd h (by simp)
        · rw [run_no_connect url s net fso fs hu hs hp'
                (by simpa using hc)] at h
          exact absurd h (by simp)
    · rw [run_bad_scheme url s net fso fs hu hs] at h
      exact absurd h (by simp)

/-- With an accepted scheme the routine never reports `invalidURL`. -/
theorem res_not_invalid (url s : String) (net : Net) (fso : FSO) (fs : FS)
    (hu : urlparseScheme url = some s) (hs : s = "http" ∨ s = "https") :
    (get_pdf_local_path url net fso fs).res ≠ .error .invalidURL := by
  by_cases hp : fs.probe (fullpathOf url) = true
  · rw [run_hit url s net fso fs hu hs hp]
    simp
  · have hp' : fs.probe (fullpathOf url) = false := by simpa using hp
    by_cases hc : net.connects = true
    · by_cases hok : streamOk net.chunks net.completes = true
      · by_cases hrep : fso.replaceOk = true
        · rw [run_download_ok url s net fso fs hu hs hp' hc hok hrep]
          simp
        · rw [run_replace_fail url s net fso fs hu hs hp' hc hok
                (by simpa using hrep)]
          simp
      · rw [run_stream_fail url s net fso fs hu hs hp' hc (by simpa using hok)]
        simp
    · rw [run_no_connect url s net fso fs hu hs hp' (by simpa using hc)]
      simp

/-- The chunks the loop writes all come from the read results. -/
theorem streamWritten_subset :
    ∀ (l : List Bytes) (c : Bytes), c ∈ streamWritten l → c ∈ l := by
  intro l
  induction l with
  | nil => intro c hc; simp [streamWritten] at hc
  | cons a rest ih =>
    intro c hc
    unfold streamWritten at hc
    by_cases ha : a.isEmpty
    · rw [if_pos ha] at hc; simp at hc
    · rw [if_neg ha] at hc
      rcases List.mem_cons.mp hc with rfl | hc
      · exact List.mem_cons.mpr (Or.inl rfl)
      · exact List.mem_cons.mpr (Or.inr (ih c hc))

/-- Hex digits below 16 render as lowercase hex characters. -/
theorem hexDigit_lower (n : Nat) (h : n < 16) :
    isLowerHexChar (hexDigit n) = true := by
  have H : ∀ i : Fin 16, isLowerHexChar (hexDigit i.val) = true := by decide
  exact H ⟨n, h⟩

/-- Every character a word renders to is a lowercase hex character. -/
theorem wordHex_lower (w : Nat) : ∀ c ∈ wordHex w, isLowerHexChar c = true := by
  intro c hc
  unfold wordHex at hc
  simp at hc
  rcases hc with rfl | rfl | rfl | rfl | rfl | rfl | rfl | rfl <;>
    exact hexDigit_lower _ (Nat.mod_lt _ (by norm_num))

/-- A SHA-256 hex digest consists of lowercase hex characters only. -/
theorem sha256Hex_lower (msg : Bytes) :
    ∀ c ∈ (sha256Hex msg).toList, isLowerHexChar c = true := by
  intro c hc
  unfold sha256Hex at hc
  have hc' : c ∈ ((sha256Words msg).map wordHex).flatten := hc
  rcases List.mem_flatten.mp hc' with ⟨l, hl, hcl⟩
  rcases List.mem_map.mp hl with ⟨w, _, rfl⟩
  exact wordHex_lower w c hcl

/-- Distinct digests give distinct cache paths. -/
theorem fullpathOf_inj_digest (u1 u2 : String)
    (h : sha256Hex (utf8 u1) ≠ sha256Hex (utf8 u2)) :
    fullpathOf u1 ≠ fullpathOf u2 := by
  intro he
  apply h
  have hd := congrArg String.data he
  simp only [fullpathOf, osPathJoin, tmpdir, String.data_append] at hd
  have h1 := List.append_cancel_left hd
  exact String.ext (List.append_cancel_right h1)

/-- When no staging file is present, the cleanup clause is the single probe. -/
theorem cleanup_noop (fso : FSO) (t f : String) (fs : FS)
    (h : fs.probe t = false) : cleanup fso t f fs = (fs, [Ev.probe t]) := by
  unfold cleanup
  rw [if_neg (by simp [h])]

/-- Writing the staging file does not change the final path. -/
theorem probe_full_after_staging (fs : FS) (full : String) (ws : List Bytes) :
    (((fs.set (full ++ ".part") []).set (full ++ ".part")
        ws.flatten)).probe full = fs.probe full := by
  rw [FS.probe_set_ne _ _ _ _ (Ne.symm (ne_append_part full)),
      FS.probe_set_ne _ _ _ _ (Ne.symm (ne_append_part full))]

/-- After the atomic rename, the staging path is gone. -/
theorem probe_staging_after_rename (fs : FS) (full : String) (ws : List Bytes) :
    ((((fs.set (full ++ ".part") []).set (full ++ ".part")
        ws.flatten).remove (full ++ ".part")).set full
        ws.flatten).probe (full ++ ".part") = false := by
  rw [FS.probe_set_ne _ _ _ _ (ne_append_part full)]
  exact FS.probe_remove_self _ _

/-! ## The claims -/

/-- C2: for every valid URL, any two calls that return successfully return the
same output path string: the path depends only on the URL (and the fixed temp
directory), not on the network behaviour, the fallible-call behaviour or the
prior cache state. -/
theorem C2_determinism (url : String) (n1 n2 : Net) (o1 o2 : FSO)
    (f1 f2 : FS) (p1 p2 : String)
    (h1 : (get_pdf_local_path url n1 o1 f1).res = .ok p1)
    (h2 : (get_pdf_local_path url n2 o2 f2).res = .ok p2) : p1 = p2 :=
  (res_ok_path url n1 o1 f1 p1 h1).trans (res_ok_path url n2 o2 f2 p2 h2).symm

theorem C2_witness :
    (get_pdf_local_path "http://x/a" ⟨true, [[37]], true⟩ ⟨true, true⟩ []).res
        = .ok (fullpathOf "http://x/a")
    ∧ (get_pdf_local_path "http://x/a" ⟨false, [], true⟩ ⟨true, true⟩
        [(fullpathOf "http://x/a", [37])]).res = .ok (fullpathOf "http://x/a")
    ∧ fullpathOf "http://x/a" = fullpathOf "http://x/a" :=
  ⟨by decide, by decide,
   C2_determinism "http://x/a" ⟨true, [[37]], true⟩ ⟨false, [], true⟩
     ⟨true, true⟩ ⟨true, true⟩ [] [(fullpathOf "http://x/a", [37])]
     (fullpathOf "http://x/a") (fullpathOf "http://x/a")
     (by decide) (by decide)⟩

/-- C3: every path the routine returns equals the system temp directory joined
with the lowercase hex SHA-256 digest of the UTF-8 bytes of the original,
unmodified URL string, with the fixed `.pdf` extension appended
(`specCachePath` is written from the spec's words); the digest really is
lowercase hex. -/
theorem C3_path_spec (url : String) (net : Net) (fso : FSO) (fs : FS)
    (p : String) (h : (get_pdf_local_path url net fso fs).res = .ok p) :
    p = specCachePath url
    ∧ ∀ c ∈ (sha256Hex (utf8 url)).toList, isLowerHexChar c = true := by
  refine ⟨?_, sha256Hex_lower (utf8 url)⟩
  rw [res_ok_path url net fso fs p h]
  rfl

theorem C3_witness :
    (get_pdf_local_path "http://x/a" ⟨true, [[37]], true⟩ ⟨true, true⟩ []).res
        = .ok (fullpathOf "http://x/a")
    ∧ fullpathOf "http://x/a" = specCachePath "http://x/a" :=
  ⟨by decide,
   (C3_path_spec "http://x/a" ⟨true, [[37]], true⟩ ⟨true, true⟩ []
     (fullpathOf "http://x/a") (by decide)).1⟩

/-- C5: when a file already exists at the computed cache path, the routine
returns that path immediately, with no network access (no connect event ever
appears in its trace, so nothing is downloaded or re-validated). -/
theorem C5_fast_path (url s : String) (net : Net) (fso : FSO) (fs : FS)
    (hu : urlparseScheme url = some s) (hs : s = "http" ∨ s = "https")
    (hp : fs.probe (fullpathOf url) = true) :
    (get_pdf_local_path url net fso fs).res = .ok (fullpathOf url)
    ∧ ∀ u, Ev.connect u ∉ (get_pdf_local_path url net fso fs).tr := by
  rw [run_hit url s net fso fs hu hs hp]
  refine ⟨rfl, ?_⟩
  intro u h
  simp at h

theorem C5_witness :
    urlparseScheme "http://x/a" = some "http"
    ∧ FS.probe [(fullpathOf "http://x/a", [37])] (fullpathOf "http://x/a") = true
    ∧ (get_pdf_local_path "http://x/a" ⟨false, [], false⟩ ⟨false, false⟩
        [(fullpathOf "http://x/a", [37])]).res = .ok (fullpathOf "http://x/a") :=
  ⟨by decide, by decide,
   (C5_fast_path "http://x/a" "http" ⟨false, [], false⟩ ⟨false, false⟩
     [(fullpathOf "http://x/a", [37])] (by decide) (Or.inl rfl) (by decide)).1⟩

/-- C10: on the fast path the routine leaves the filesystem entirely
unchanged, and its whole interaction is the single existence probe of the
computed cache path. -/
theorem C10_fast_path_frame (url s : String) (net : Net) (fso : FSO) (fs : FS)
    (hu : urlparseScheme url = some s) (hs : s = "http" ∨ s = "https")
    (hp : fs.probe (fullpathOf url) = true) :
    (get_pdf_local_path url net fso fs).fs = fs
    ∧ (get_pdf_local_path url net fso fs).tr = [Ev.probe (fullpathOf url)] := by
  rw [run_hit url s net fso fs hu hs hp]
  exact ⟨rfl, rfl⟩

theorem C10_witness :
    urlparseScheme "http://x/a" = some "http"
    ∧ FS.probe [(fullpathOf "http://x/a", [37])] (fullpathOf "http://x/a") = true
    ∧ (get_pdf_local_path "http://x/a" ⟨true, [[1]], true⟩ ⟨true, true⟩
        [(fullpathOf "http://x/a", [37])]).fs = [(fullpathOf "http://x/a", [37])] :=
  ⟨by decide, by decide,
   (C10_fast_path_frame "http://x/a" "http" ⟨true, [[1]], true⟩ ⟨true, true⟩
     [(fullpathOf "http://x/a", [37])] (by decide) (Or.inl rfl) (by decide)).1⟩

/-- C6: on a cache miss with a completing stream, the routine connects, opens
the staging file `<path>.part` for truncating write, writes exactly the
streamed chunks (each bounded by the 8192-byte read size when the reads are),
renames staging to final in one single filesystem operation, and returns the
final path with the complete content published and no staging file left. -/
theorem C6_slow_path (url s : String) (net : Net) (fso : FSO) (fs : FS)
    (hu : urlparseScheme url = some s) (hs : s = "http" ∨ s = "https")
    (hp : fs.probe (fullpathOf url) = false) (hc : net.connects = true)
    (hok : streamOk net.chunks net.completes = true)
    (hrep : fso.replaceOk = true)
    (hbound : ∀ c ∈ net.chunks, c.length ≤ 8192) :
    (get_pdf_local_path url net fso fs).res = .ok (fullpathOf url)
    ∧ (get_pdf_local_path url net fso fs).tr =
        [Ev.probe (fullpathOf url), Ev.connect url,
         Ev.openw (fullpathOf url ++ ".part")]
        ++ (streamWritten net.chunks).map (Ev.write (fullpathOf url ++ ".part"))
        ++ [Ev.rename (fullpathOf url ++ ".part") (fullpathOf url),
            Ev.probe (fullpathOf url ++ ".part")]
    ∧ ((get_pdf_local_path url net fso fs).fs).get (fullpathOf url)
        = some (streamWritten net.chunks).flatten
    ∧ ((get_pdf_local_path url net fso fs).fs).probe (fullpathOf url ++ ".part")
        = false
    ∧ ∀ c ∈ streamWritten net.chunks, c.length ≤ 8192 := by
  rw [run_download_ok url s net fso fs hu hs hp hc hok hrep]
  rw [cleanup_noop fso _ _ _ (probe_staging_after_rename fs (fullpathOf url)
        (streamWritten net.chunks))]
  refine ⟨rfl, by simp, ?_, ?_, ?_⟩
  · exact FS.get_set_self _ _ _
  · exact probe_staging_after_rename fs (fullpathOf url) (streamWritten net.chunks)
  · intro c hc'
    exact hbound c (streamWritten_subset net.chunks c hc')

theorem C6_witness :
    streamOk [[7], [8]] true = true
    ∧ (get_pdf_local_path "http://x/a" ⟨true, [[7], [8]], true⟩ ⟨true, true⟩
        []).res = .ok (fullpathOf "http://x/a") :=
  ⟨by decide,
   (C6_slow_path "http://x/a" "http" ⟨true, [[7], [8]], true⟩ ⟨true, true⟩ []
     (by decide) (Or.inl rfl) (by decide) rfl (by decide) rfl (by decide)).1⟩

/-- C4: the routine reports `invalidURL` (Python `ValueError`) exactly when
the URL fails to parse or its parsed scheme is not `http`/`https`, and in that
case no network or filesystem access occurs at all (empty trace) and the
filesystem is untouched. -/
theorem C4_invalid_iff (url : String) (net : Net) (fso : FSO) (fs : FS) :
    ((get_pdf_local_path url net fso fs).res = .error .invalidURL
      ↔ (urlparseScheme url ≠ some "http" ∧ urlparseScheme url ≠ some "https"))
    ∧ ((get_pdf_local_path url net fso fs).res = .error .invalidURL →
        (get_pdf_local_path url net fso fs).tr = []
        ∧ (get_pdf_local_path url net fso fs).fs = fs) := by
  cases hu : urlparseScheme url with
  | none =>
    rw [run_parse_fail url net fso fs hu]
    exact ⟨⟨fun _ => ⟨by simp [hu], by simp [hu]⟩, fun _ => rfl⟩,
           fun _ => ⟨rfl, rfl⟩⟩
  | some s =>
    by_cases hs : s = "http" ∨ s = "https"
    · refine ⟨⟨fun h => absurd h (res_not_invalid url s net fso fs hu hs),
               fun hr => ?_⟩,
              fun h => absurd h (res_not_invalid url s net fso fs hu hs)⟩
      rcases hs with rfl | rfl
      · exact absurd rfl hr.1
      · exact absurd rfl hr.2
    · rw [run_bad_scheme url s net fso fs hu hs]
      refine ⟨⟨fun _ => ⟨?_, ?_⟩, fun _ => rfl⟩, fun _ => ⟨rfl, rfl⟩⟩
      · simp only [ne_eq, Option.some.injEq]
        exact fun h => hs (Or.inl h)
      · simp only [ne_eq, Option.some.injEq]
        exact fun h => hs (Or.inr h)

theorem C4_witness :
    (urlparseScheme "ftp://h/x" ≠ some "http"
      ∧ urlparseScheme "ftp://h/x" ≠ some "https")
    ∧ (get_pdf_local_path "ftp://h/x" ⟨true, [[1]], true⟩ ⟨true, true⟩ []).res
        = .error .invalidURL
    ∧ (get_pdf_local_path "ftp://h/x" ⟨true, [[1]], true⟩ ⟨true, true⟩ []).tr
        = [] :=
  ⟨by decide,
   (C4_invalid_iff "ftp://h/x" ⟨true, [[1]], true⟩ ⟨true, true⟩ []).1.mpr
     (by decide),
   ((C4_invalid_iff "ftp://h/x" ⟨true, [[1]], true⟩ ⟨true, true⟩ []).2
     ((C4_invalid_iff "ftp://h/x" ⟨true, [[1]], true⟩ ⟨true, true⟩ []).1.mpr
       (by decide))).1⟩

/-- C7: the cache key is the digest of the exact URL string, so any two URLs
with distinct digests get distinct cache paths (hash collisions being the only
exception, which the spec treats as negligible); in particular the claim's
example pair `http://x/a` vs `http://x/a/` — equal up to a trailing slash, so
any normalization would merge them — map to different paths. -/
theorem C7_key_distinct :
    (∀ u1 u2 : String, sha256Hex (utf8 u1) ≠ sha256Hex (utf8 u2) →
        fullpathOf u1 ≠ fullpathOf u2)
    ∧ fullpathOf "http://x/a" ≠ fullpathOf "http://x/a/" :=
  ⟨fullpathOf_inj_digest,
   fullpathOf_inj_digest "http://x/a" "http://x/a/" (by decide)⟩

theorem C7_witness :
    sha256Hex (utf8 "http://x/a") ≠ sha256Hex (utf8 "http://x/a/")
    ∧ fullpathOf "http://x/a" ≠ fullpathOf "http://x/a/" :=
  ⟨by decide, C7_key_distinct.1 "http://x/a" "http://x/a/" (by decide)⟩

/-- C8: the outcome reported to the caller is identical whether the cleanup's
`os.remove` fails or succeeds — a failing best-effort deletion is swallowed
and never replaces or masks the primary error. -/
theorem C8_cleanup_swallowed (url : String) (net : Net) (rep : Bool) (fs : FS) :
    (get_pdf_local_path url net ⟨rep, false⟩ fs).res
      = (get_pdf_local_path url net ⟨rep, true⟩ fs).res := by
  cases hu : urlparseScheme url with
  | none =>
    rw [run_parse_fail url net ⟨rep, false⟩ fs hu,
        run_parse_fail url net ⟨rep, true⟩ fs hu]
  | some s =>
    by_cases hs : s = "http" ∨ s = "https"
    · by_cases hp : fs.probe (fullpathOf url) = true
      · rw [run_hit url s net ⟨rep, false⟩ fs hu hs hp,
            run_hit url s net ⟨rep, true⟩ fs hu hs hp]
      · have hp' : fs.probe (fullpathOf url) = false := by simpa using hp
        by_cases hc : net.connects = true
        · by_cases hok : streamOk net.chunks net.completes = true
          · cases rep with
            | true =>
              rw [run_download_ok url s net ⟨true, false⟩ fs hu hs hp' hc hok rfl,
                  run_download_ok url s net ⟨true, true⟩ fs hu hs hp' hc hok rfl]
            | false =>
              rw [run_replace_fail url s net ⟨false, false⟩ fs hu hs hp' hc hok rfl,
                  run_replace_fail url s net ⟨false, true⟩ fs hu hs hp' hc hok rfl]
          · have hok' : streamOk net.chunks net.completes = false := by
              simpa using hok
            rw [run_stream_fail url s net ⟨rep, false⟩ fs hu hs hp' hc hok',
                run_stream_fail url s net ⟨rep, true⟩ fs hu hs hp' hc hok']
        · have hc' : net.connects = false := by simpa using hc
          rw [run_no_connect url s net ⟨rep, false⟩ fs hu hs hp' hc',
              run_no_connect url s net ⟨rep, true⟩ fs hu hs hp' hc']
    · rw [run_bad_scheme url s net ⟨rep, false⟩ fs hu hs,
          run_bad_scheme url s net ⟨rep, true⟩ fs hu hs]

/-- C1 (amended): at the end of any invocation on a valid URL, a half-written
file never sits under the final name — on an error the final cache path does
not exist, and when the failure was a download failure the caller receives the
download error; on success the returned path exists and holds either the
pre-existing cached content or the complete downloaded stream; and on an error
the staging file is gone whenever its best-effort deletion succeeds (if
`os.remove` itself fails, the staging file may remain — the sole deviation
from the claim as stated). -/
theorem C1_invariant_amended (url s : String) (net : Net) (fso : FSO) (fs : FS)
    (hu : urlparseScheme url = some s) (hs : s = "http" ∨ s = "https") :
    (∀ e : Err, (get_pdf_local_path url net fso fs).res = .error e →
        ((get_pdf_local_path url net fso fs).fs).probe (fullpathOf url) = false)
    ∧ (∀ p : String, (get_pdf_local_path url net fso fs).res = .ok p →
        ((get_pdf_local_path url net fso fs).fs).probe p = true
        ∧ (((get_pdf_local_path url net fso fs).fs).get p = fs.get p
           ∨ ((get_pdf_local_path url net fso fs).fs).get p
               = some (streamWritten net.chunks).flatten))
    ∧ (∀ e : Err, (get_pdf_local_path url net fso fs).res = .error e →
        fso.removeOk = true →
        ((get_pdf_local_path url net fso fs).fs).probe
          (fullpathOf url ++ ".part") = false)
    ∧ (fs.probe (fullpathOf url) = false →
        net.connects = false ∨ streamOk net.chunks net.completes = false →
        (get_pdf_local_path url net fso fs).res = .error .downloadError) := by
  by_cases hp : fs.probe (fullpathOf url) = true
  · rw [run_hit url s net fso fs hu hs hp]
    refine ⟨?_, ?_, ?_, ?_⟩
    · intro e he; exact absurd he (by simp)
    · intro p hp2
      have hpf : fullpathOf url = p := by simpa using hp2
      subst hpf
      exact ⟨hp, Or.inl rfl⟩
    · intro e he; exact absurd he (by simp)
    · intro hmiss hnet
      rw [hp] at hmiss
      exact absurd hmiss (by simp)
  · have hp' : fs.probe (fullpathOf url) = false := by simpa using hp
    by_cases hc : net.connects = true
    · by_cases hok : streamOk net.chunks net.completes = true
      · by_cases hrep : fso.replaceOk = true
        · rw [run_download_ok url s net fso fs hu hs hp' hc hok hrep,
              cleanup_noop fso _ _ _ (probe_staging_after_rename fs
                (fullpathOf url) (streamWritten net.chunks))]
          refine ⟨?_, ?_, ?_, ?_⟩
          · intro e he; exact absurd he (by simp)
          · intro p hp2
            have hpf : fullpathOf url = p := by simpa using hp2
            subst hpf
            exact ⟨FS.probe_set_self _ _ _, Or.inr (FS.get_set_self _ _ _)⟩
          · intro e he; exact absurd he (by simp)
          · intro hmiss hnet
            rcases hnet with h | h
            · rw [hc] at h; exact absurd h (by simp)
            · rw [hok] at h; exact absurd h (by simp)
        · have hrep' : fso.replaceOk = false := by simpa using hrep
          rw [run_replace_fail url s net fso fs hu hs hp' hc hok hrep']
          refine ⟨?_, ?_, ?_, ?_⟩
          · intro e he
            rw [cleanup_probe_other fso _ _ _ _
                  (Ne.symm (ne_append_part (fullpathOf url))),
                probe_full_after_staging fs (fullpathOf url)
                  (streamWritten net.chunks)]
            exact hp'
          · intro p hp2; exact absurd hp2 (by simp)
          · intro e he hrm
            exact cleanup_removes_staging fso _ _ _ hrm
              (by rw [probe_full_after_staging fs (fullpathOf url)
                        (streamWritten net.chunks)]; exact hp')
          · intro hmiss hnet
            rcases hnet with h | h
            · rw [hc] at h; exact absurd h (by simp)
            · rw [hok] at h; exact absurd h (by simp)
      · have hok' : streamOk net.chunks net.completes = false := by simpa using hok
        rw [run_stream_fail url s net fso fs hu hs hp' hc hok']
        refine ⟨?_, ?_, ?_, ?_⟩
        · intro e he
          rw [cleanup_probe_other fso _ _ _ _
                (Ne.symm (ne_append_part (fullpathOf url))),
              probe_full_after_staging fs (fullpathOf url)
                (streamWritten net.chunks)]
          exact hp'
        · intro p hp2; exact absurd hp2 (by simp)
        · intro e he hrm
          exact cleanup_removes_staging fso _ _ _ hrm
            (by rw [probe_full_after_staging fs (fullpathOf url)
                      (streamWritten net.chunks)]; exact hp')
        · intro hmiss hnet; rfl
    · have hc' : net.connects = false := by simpa using hc
      rw [run_no_connect url s net fso fs hu hs hp' hc']
      refine ⟨?_, ?_, ?_, ?_⟩
      · intro e he
        rw [cleanup_probe_other fso _ _ fs _
              (Ne.symm (ne_append_part (fullpathOf url)))]
        exact hp'
      · intro p hp2; exact absurd hp2 (by simp)
      · intro e he hrm
        exact cleanup_removes_staging fso _ _ fs hrm hp'
      · intro hmiss hnet; rfl

/-- C1 counterexample: a download that fails after one chunk, combined with a
failing `os.remove`, ends with the staging file still present — so "either the
final file exists or neither the final nor the staging file exists" is false
as stated. -/
theorem C1_counterexample :
    (get_pdf_local_path "http://x/a" ⟨true, [[1]], false⟩ ⟨true, false⟩ []).res
        = .error .downloadError
    ∧ FS.probe (get_pdf_local_path "http://x/a" ⟨true, [[1]], false⟩
        ⟨true, false⟩ []).fs (fullpathOf "http://x/a") = false
    ∧ FS.probe (get_pdf_local_path "http://x/a" ⟨true, [[1]], false⟩
        ⟨true, false⟩ []).fs (fullpathOf "http://x/a" ++ ".part") = true := by
  decide

theorem C1_witness :
    urlparseScheme "http://x/a" = some "http"
    ∧ (get_pdf_local_path "http://x/a" ⟨true, [[1]], false⟩ ⟨true, true⟩ []).res
        = .error .downloadError
    ∧ FS.probe (get_pdf_local_path "http://x/a" ⟨true, [[1]], false⟩
        ⟨true, true⟩ []).fs (fullpathOf "http://x/a" ++ ".part") = false := by
  have hd := C1_invariant_amended "http://x/a" "http" ⟨true, [[1]], false⟩
    ⟨true, true⟩ [] (by decide) (Or.inl rfl)
  exact ⟨by decide,
         hd.2.2.2 (by decide) (Or.inr (by decide)),
         hd.2.2.1 .downloadError (hd.2.2.2 (by decide) (Or.inr (by decide))) rfl⟩

/-- C9 (amended): the parser lowercases the scheme before the membership check
against `http`/`https`, so a URL whose raw scheme differs from those only in
letter case is never rejected — provided the URL otherwise parses (a URL that
fails to parse, e.g. with a mismatched IPv6 bracket, still raises `ValueError`
whatever the case of its scheme). -/
theorem C9_scheme_case_amended (url s : String) (net : Net) (fso : FSO)
    (fs : FS) (hu : urlparseScheme url = some s)
    (hcase : (rawScheme url).map Char.toLower = "http".toList
           ∨ (rawScheme url).map Char.toLower = "https".toList) :
    (get_pdf_local_path url net fso fs).res ≠ .error .invalidURL := by
  have hl := urlparseScheme_eq_lower url s hu
  rcases hcase with h | h
  · exact res_not_invalid url s net fso fs hu (Or.inl (by rw [hl, h]; rfl))
  · exact res_not_invalid url s net fso fs hu (Or.inr (by rw [hl, h]; rfl))

/-- C9 counterexample: `HTTP://[h/x` has raw scheme `HTTP`, differing from
`http` only in letter case, yet the call raises `ValueError` (urlparse's
mismatched-IPv6-bracket check), so the claim as stated is false. -/
theorem C9_counterexample :
    (rawScheme "HTTP://[h/x").map Char.toLower = "http".toList
    ∧ (get_pdf_local_path "HTTP://[h/x" ⟨true, [[1]], true⟩ ⟨true, true⟩ []).res
        = .error .invalidURL := by
  decide

theorem C9_witness :
    urlparseScheme "HTTP://host/x" = some "http"
    ∧ (rawScheme "HTTP://host/x").map Char.toLower = "http".toList
    ∧ (get_pdf_local_path "HTTP://host/x" ⟨true, [[1]], true⟩ ⟨true, true⟩
        []).res ≠ .error .invalidURL :=
  ⟨by decide, by decide,
   C9_scheme_case_amended "HTTP://host/x" "http" ⟨true, [[1]], true⟩
     ⟨true, true⟩ [] (by decide) (Or.inl (by decide))⟩

end PdfCache
